import Mathlib

/-!
Verification of the DisOrder server core against its specification.

Shallow embedding of the relevant parts of the C sources:
  * src/server/server.c  — command dispatcher, c_user, c_deluser,
    c_playing_hls, c_rtp_request / c_rtp_cancel, remove_connection
  * src/lib/event.c      — buffered writer (space/time bounds), tied
    reader/writer shutdown discipline
  * src/lib/uaudio-rtp.c — rtp_play
  * src/server/speaker-network.c — network_play (RTP timestamp discipline)

Machine integers are modelled as Nat with explicit reductions modulo
2^w where the C code relies on wrap-around.
-/

namespace Disorder

/-! ## Rights bitmask

Modelled from the spec: the rights bit values live in lib/rights.h which is
not among the provided sources; the spec lists the bits (play, pause,
scratch-mine/random/any, remove-…, move-…, volume, admin, rescan, register,
prefs, global-prefs, userinfo, read, local).  The claims below depend only
on which command masks are zero and on bitwise-and with a rights word, so
any assignment of distinct bits is faithful. -/

def RIGHT_READ : Nat := 0x00000001
def RIGHT_PLAY : Nat := 0x00000002
def RIGHT_MOVE_ANY : Nat := 0x00000004
def RIGHT_MOVE_MINE : Nat := 0x00000008
def RIGHT_MOVE_RANDOM : Nat := 0x00000010
def RIGHT_REMOVE_ANY : Nat := 0x00000020
def RIGHT_REMOVE_MINE : Nat := 0x00000040
def RIGHT_REMOVE_RANDOM : Nat := 0x00000080
def RIGHT_SCRATCH_ANY : Nat := 0x00000100
def RIGHT_SCRATCH_MINE : Nat := 0x00000200
def RIGHT_SCRATCH_RANDOM : Nat := 0x00000400
def RIGHT_VOLUME : Nat := 0x00000800
def RIGHT_ADMIN : Nat := 0x00001000
def RIGHT_RESCAN : Nat := 0x00002000
def RIGHT_REGISTER : Nat := 0x00004000
def RIGHT_USERINFO : Nat := 0x00008000
def RIGHT_PREFS : Nat := 0x00010000
def RIGHT_GLOBAL_PREFS : Nat := 0x00020000
def RIGHT_PAUSE : Nat := 0x00040000
def RIGHT__LOCAL : Nat := 0x80000000

def RIGHT_MOVE__MASK : Nat := RIGHT_MOVE_ANY ||| RIGHT_MOVE_MINE ||| RIGHT_MOVE_RANDOM
def RIGHT_REMOVE__MASK : Nat :=
  RIGHT_REMOVE_ANY ||| RIGHT_REMOVE_MINE ||| RIGHT_REMOVE_RANDOM
def RIGHT_SCRATCH__MASK : Nat :=
  RIGHT_SCRATCH_ANY ||| RIGHT_SCRATCH_MINE ||| RIGHT_SCRATCH_RANDOM

/-! ## Command table and dispatcher (src/server/server.c, `commands` and `command`) -/

/-- C's INT_MAX, used as the maxargs bound of variadic commands. -/
def INT_MAX : Nat := 2147483647

/-- One row of the `commands[]` table in src/server/server.c. -/
structure CmdEntry where
  name : String
  minargs : Nat
  maxargs : Nat
  rights : Nat
deriving DecidableEq, Repr

/-- The `commands[]` table from src/server/server.c, transcribed row by row
(the handler function pointers are dropped; dispatch outcomes carry the
command name instead). -/
def commandsTable : List CmdEntry := [
  ⟨"adduser",        2, 3,       RIGHT_ADMIN⟩,
  ⟨"adopt",          1, 1,       RIGHT_PLAY⟩,
  ⟨"allfiles",       0, 2,       RIGHT_READ⟩,
  ⟨"confirm",        1, 1,       0⟩,
  ⟨"cookie",         1, 1,       0⟩,
  ⟨"deluser",        1, 1,       RIGHT_ADMIN⟩,
  ⟨"dirs",           0, 2,       RIGHT_READ⟩,
  ⟨"disable",        0, 1,       RIGHT_GLOBAL_PREFS⟩,
  ⟨"edituser",       3, 3,       RIGHT_ADMIN ||| RIGHT_USERINFO⟩,
  ⟨"enable",         0, 0,       RIGHT_GLOBAL_PREFS⟩,
  ⟨"enabled",        0, 0,       RIGHT_READ⟩,
  ⟨"exists",         1, 1,       RIGHT_READ⟩,
  ⟨"files",          0, 2,       RIGHT_READ⟩,
  ⟨"get",            2, 2,       RIGHT_READ⟩,
  ⟨"get-global",     1, 1,       RIGHT_READ⟩,
  ⟨"length",         1, 1,       RIGHT_READ⟩,
  ⟨"log",            0, 0,       RIGHT_READ⟩,
  ⟨"make-cookie",    0, 0,       RIGHT_READ⟩,
  ⟨"move",           2, 2,       RIGHT_MOVE__MASK⟩,
  ⟨"moveafter",      1, INT_MAX, RIGHT_MOVE__MASK⟩,
  ⟨"new",            0, 1,       RIGHT_READ⟩,
  ⟨"nop",            0, 0,       0⟩,
  ⟨"part",           3, 4,       RIGHT_READ⟩,
  ⟨"pause",          0, 0,       RIGHT_PAUSE⟩,
  ⟨"play",           1, 1,       RIGHT_PLAY⟩,
  ⟨"playafter",      2, INT_MAX, RIGHT_PLAY⟩,
  ⟨"playing",        0, 0,       RIGHT_READ⟩,
  ⟨"playing-hls",    0, 0,       RIGHT_READ⟩,
  ⟨"playlist-delete",    1, 1,   RIGHT_PLAY⟩,
  ⟨"playlist-get",       1, 1,   RIGHT_READ⟩,
  ⟨"playlist-get-share", 1, 1,   RIGHT_READ⟩,
  ⟨"playlist-lock",      1, 1,   RIGHT_PLAY⟩,
  ⟨"playlist-set",       1, 1,   RIGHT_PLAY⟩,
  ⟨"playlist-set-share", 2, 2,   RIGHT_PLAY⟩,
  ⟨"playlist-unlock",    0, 0,   RIGHT_PLAY⟩,
  ⟨"playlists",          0, 0,   RIGHT_READ⟩,
  ⟨"prefs",          1, 1,       RIGHT_READ⟩,
  ⟨"queue",          0, 0,       RIGHT_READ⟩,
  ⟨"random-disable", 0, 0,       RIGHT_GLOBAL_PREFS⟩,
  ⟨"random-enable",  0, 0,       RIGHT_GLOBAL_PREFS⟩,
  ⟨"random-enabled", 0, 0,       RIGHT_READ⟩,
  ⟨"recent",         0, 0,       RIGHT_READ⟩,
  ⟨"reconfigure",    0, 0,       RIGHT_ADMIN⟩,
  ⟨"register",       3, 3,       RIGHT_REGISTER⟩,
  ⟨"reminder",       1, 1,       RIGHT__LOCAL⟩,
  ⟨"remove",         1, 1,       RIGHT_REMOVE__MASK⟩,
  ⟨"rescan",         0, INT_MAX, RIGHT_RESCAN⟩,
  ⟨"resolve",        1, 1,       RIGHT_READ⟩,
  ⟨"resume",         0, 0,       RIGHT_PAUSE⟩,
  ⟨"revoke",         0, 0,       RIGHT_READ⟩,
  ⟨"rtp-address",    0, 0,       0⟩,
  ⟨"rtp-cancel",     0, 0,       0⟩,
  ⟨"rtp-request",    2, 2,       RIGHT_READ⟩,
  ⟨"schedule-add",   3, INT_MAX, RIGHT_READ⟩,
  ⟨"schedule-del",   1, 1,       RIGHT_READ⟩,
  ⟨"schedule-get",   1, 1,       RIGHT_READ⟩,
  ⟨"schedule-list",  0, 0,       RIGHT_READ⟩,
  ⟨"scratch",        0, 1,       RIGHT_SCRATCH__MASK⟩,
  ⟨"search",         1, 1,       RIGHT_READ⟩,
  ⟨"set",            3, 3,       RIGHT_PREFS⟩,
  ⟨"set-global",     2, 2,       RIGHT_GLOBAL_PREFS⟩,
  ⟨"shutdown",       0, 0,       RIGHT_ADMIN⟩,
  ⟨"stats",          0, 0,       RIGHT_READ⟩,
  ⟨"tags",           0, 0,       RIGHT_READ⟩,
  ⟨"unset",          2, 2,       RIGHT_PREFS⟩,
  ⟨"unset-global",   1, 1,       RIGHT_GLOBAL_PREFS⟩,
  ⟨"user",           2, 2,       0⟩,
  ⟨"userinfo",       2, 2,       RIGHT_READ⟩,
  ⟨"users",          0, 0,       RIGHT_READ⟩,
  ⟨"version",        0, 0,       RIGHT_READ⟩,
  ⟨"volume",         0, 2,       RIGHT_READ ||| RIGHT_VOLUME⟩
]

/-- Outcome of the dispatcher in `command()` for an already-split line.
`execute` means the per-command handler `commands[n].fn` is invoked. -/
inductive CmdOutcome where
  /-- "500 do what?" (empty token vector) -/
  | noCommand
  /-- "500 unknown command" (TABLE_FIND failed) -/
  | unknown
  /-- "510 Prohibited" (rights check failed) -/
  | prohibited
  /-- "500 missing argument(s)" -/
  | missingArgs
  /-- "500 too many arguments" -/
  | tooManyArgs
  /-- handler invoked with the remaining arguments -/
  | execute (name : String) (args : List String)
deriving DecidableEq, Repr

/-- The dispatcher of `command()` in src/server/server.c, after UTF-8
normalisation and token splitting have succeeded.  `TABLE_FIND` (a bsearch
over the name-sorted table) is modelled as the first entry with a matching
name.  Note the order of checks in the source: rights first, then the
argument-count bounds. -/
def command (rights : Nat) (vec : List String) : CmdOutcome :=
  match vec with
  | [] => .noCommand
  | name :: args =>
    match commandsTable.find? (fun e => e.name = name) with
    | none => .unknown
    | some e =>
      if e.rights ≠ 0 ∧ rights &&& e.rights = 0 then .prohibited
      else if args.length < e.minargs then .missingArgs
      else if args.length > e.maxargs then .tooManyArgs
      else .execute name args

/-- The commands whose table entry carries a zero required-rights mask, i.e.
the commands that pass the rights gate on a connection whose rights word is
still zero. -/
def noAuthCommands : List String :=
  ["confirm", "cookie", "nop", "rtp-address", "rtp-cancel", "user"]

/-! ## `c_user` (src/server/server.c) -/

/-- The fields of a user record that `c_user` consults: the password
(absent defaults to ""), the confirmation nonce (present means the user is
unconfirmed and is rejected), and the parsed rights (`none` models
`parse_rights` failing). -/
structure UserRecord where
  password : Option String
  confirmationNonce : Option String
  rights : Option Nat
deriving DecidableEq, Repr

/-- Replies of `c_user`: 530 when already authenticated, 530 on any
authentication failure, and 230 recording the user and rights. -/
inductive UserReply where
  /-- "530 already authenticated" -/
  | alreadyAuthenticated
  /-- "530 authentication failed" (or "530 authentication failure") -/
  | authFailed
  /-- "230 OK", with `c->who` and `c->rights` recorded -/
  | ok (who : String) (rights : Nat)
deriving DecidableEq, Repr

/-- `c_user` from src/server/server.c.  `wideopen` is the global wide-open
flag, `privileged` is `c->l->privileged`, `who` is the already-recorded
user (if any), `host` models `connection_host` (`none` = failure, "local"
for UNIX-socket peers), `userinfo` models `trackdb_getuserinfo`, and
`authhash` is the configured keyed-hash algorithm (`none` models a NULL
result).  The hash primitive itself is outside the covered sources, so it
is a parameter here. -/
def c_user (wideopen privileged : Bool) (who : Option String)
    (host : Option String) (userinfo : Option UserRecord)
    (authhash : String → String → Option String)
    (nonce : String) (name response : String) : UserReply :=
  if who ≠ none then .alreadyAuthenticated
  else match host with
  | none => .authFailed
  | some h =>
    match userinfo with
    | none => .authFailed
    | some k =>
      if k.confirmationNonce ≠ none then .authFailed
      else
        match k.rights with
        | none => .authFailed
        | some rights =>
          let password := k.password.getD ""
          let res := authhash nonce password
          if wideopen || privileged || res = some response then
            .ok name (if h = "local" then rights ||| RIGHT__LOCAL else rights)
          else .authFailed

/-- A concrete stand-in authentication algorithm, used only to evaluate
the `c_user` model at specific inputs. -/
def demoHash (nonce password : String) : Option String :=
  some (nonce ++ ":" ++ password)

/-! ## `rtp_play` (src/lib/uaudio-rtp.c) -/

/-- A datagram written to the RTP socket by `rtp_play`: sequence number,
marker bit, the 32-bit timestamp field and the payload sample count. -/
structure RtpPacket where
  seq : Nat
  marker : Bool
  timestampField : Nat
  payloadSamples : Nat
deriving DecidableEq, Repr

/-- The `rtp_play` state: the 16-bit sequence counter, the error counter,
and the cumulative sample count handed to `uaudio_schedule_sent`. -/
structure RtpPlayState where
  rtp_sequence : Nat
  rtp_errors : Nat
  scheduleSent : Nat
deriving DecidableEq, Repr

/-- Result of one `rtp_play` call: the new state, the datagrams written to
`rtp_fd` (empty or a singleton) and the return value. -/
structure RtpPlayResult where
  state : RtpPlayState
  written : List RtpPacket
  ret : Nat
deriving DecidableEq, Repr

/-- `rtp_play` from src/lib/uaudio-rtp.c.  `paused` is `flags &
UAUDIO_PAUSED`, `resume` is `flags & UAUDIO_RESUME`, `ts` is the value of
`uaudio_schedule_sync()` (a uint32), `rtp_base` the timestamp base and
`writevOk` the success of the `writev` call (the reaching-10-errors abort
is noted by the error counter).  When paused the code prepares the whole
packet, advances the schedule, and returns without writing ("we just
pretend"). -/
def rtp_play (st : RtpPlayState) (rtp_base nsamples : Nat)
    (paused resume : Bool) (ts : Nat) (writevOk : Bool) : RtpPlayResult :=
  let seq := st.rtp_sequence
  let st1 := { st with rtp_sequence := (st.rtp_sequence + 1) % 65536 }
  let timestampField := (rtp_base + ts % 2 ^ 32) % 2 ^ 32
  if paused then
    { state := { st1 with scheduleSent := st1.scheduleSent + nsamples },
      written := [], ret := nsamples }
  else if writevOk then
    { state := { st1 with rtp_errors := st1.rtp_errors / 2,
                          scheduleSent := st1.scheduleSent + nsamples },
      written := [⟨seq, resume, timestampField, nsamples⟩],
      ret := nsamples }
  else
    { state := { st1 with rtp_errors := st1.rtp_errors + 1 },
      written := [], ret := 0 }

/-! ## `c_playing_hls` (src/server/server.c) -/

/-- `c_playing_hls` from src/server/server.c, returning the reply lines it
writes to the connection, in order.  `playing` carries, when a track is
playing, the result of `track_rootless` (none for a scratch) and the
`played` field; `urlenc` models `urlencodestring`.  Note that in the
source the 550 branch does not return, so the function falls through and
emits a second reply line. -/
def c_playing_hls (hls_enable : Bool) (hls_baseurl : Option String)
    (playing : Option (Option String × Nat))
    (urlenc : String → String) : List String :=
  (if ¬hls_enable ∨ hls_baseurl = none then ["550 HLS not enabled"] else [])
  ++ match playing with
     | none => ["259 nothing playing"]
     | some (none, _) => ["259 nothing playing"]
     | some (some bare, played) =>
       ["252 " ++ toString played ++ " " ++ hls_baseurl.getD "" ++ urlenc bare]

/-! ## `network_play` (src/server/speaker-network.c) -/

/-- NETWORK_BYTES from src/server/speaker.h: bytes passed to write(2) per
packet. -/
def NETWORK_BYTES : Nat := 1500 - 8 - 40 - 8

/-- sizeof(struct rtp_header): 12 bytes (see src/lib/rtp.h). -/
def RTP_HEADER_SIZE : Nat := 12

/-- Bytes per frame of the device format: `network_init` forces 44100 Hz,
2 channels, 16 bits, so 4 bytes per frame. -/
def device_bpf : Nat := 4

/-- The speaker state that `network_play` reads and writes: the 64-bit
sample counter `rtp_time`, the 16-bit sequence number, the `idled` flag
set while no audio was available, and the error counter. -/
structure NetState where
  rtp_time : Nat
  rtp_seq : Nat
  idled : Bool
  audio_errors : Nat
deriving DecidableEq, Repr

/-- A packet transmitted by `network_play`: sequence number, marker bit,
the 32-bit timestamp field, the 64-bit `rtp_time` value it truncates, and
the payload size in bytes. -/
structure NetPacket where
  seq : Nat
  marker : Bool
  timestampField : Nat
  rtp64 : Nat
  payloadBytes : Nat
deriving DecidableEq, Repr

/-- The target RTP time recomputed after an idle gap:
`(delta_us * rate * channels) / 1000000` with the bottom bit cleared
(`target_rtp_time &= ~(uint64_t)1`), at the forced 44100 Hz stereo
format. -/
def networkTarget (delta_us : Nat) : Nat :=
  let t := delta_us * 44100 * 2 / 1000000
  t - t % 2

/-- The idle-gap fixup on `rtp_time`: if more time has elapsed than
samples transmitted, advance `rtp_time` to the target; otherwise leave it
unchanged (the `target_rtp_time < rtp_time` branch only logs). -/
def networkFixup (idled : Bool) (rtp_time target : Nat) : Nat :=
  if idled then (if target > rtp_time then target else rtp_time) else rtp_time

/-- `network_play` from src/server/speaker-network.c.  `delta_us` is the
elapsed wall-clock time since `rtp_time_0` in microseconds; `frames` the
frames offered; `writevOk` the success of `writev` (on the connected UDP
socket a successful `writev` transmits the whole datagram).  Returns the
new state and the packet transmitted, if any. -/
def network_play (st : NetState) (delta_us frames : Nat) (writevOk : Bool) :
    NetState × Option NetPacket :=
  let rt := networkFixup st.idled st.rtp_time (networkTarget delta_us)
  let seq := st.rtp_seq
  let marker := st.idled
  let cap := NETWORK_BYTES - RTP_HEADER_SIZE
  let bytes0 := frames * device_bpf
  let bytes := if bytes0 > cap then cap - cap % device_bpf else bytes0
  let st1 := { st with idled := false,
                       rtp_seq := (st.rtp_seq + 1) % 65536,
                       rtp_time := rt }
  if writevOk then
    let written_frames := bytes / device_bpf
    ({ st1 with audio_errors := st1.audio_errors / 2,
                rtp_time := rt + written_frames * 2 },
     some ⟨seq, marker, rt % 2 ^ 32, rt, bytes⟩)
  else
    ({ st1 with audio_errors := st1.audio_errors + 1 }, none)

/-! ## Buffered writer bounds (src/lib/event.c) -/

/-- Errors synthesized by the buffered writer. -/
inductive WErr where
  | EPIPE
  | ETIMEDOUT
deriving DecidableEq, Repr

/-- The `ev_writer` state observed by the bound logic: buffered unsent
bytes (`b.end - b.start`), the two bounds, the pending time-bound timeout
(absolute expiry time), the `abandoned` flag, the synthesized error, and
whether `writer_shutdown` has been invoked or scheduled. -/
structure Writer where
  buf : Nat
  timebound : Nat
  spacebound : Nat
  timeoutAt : Option Nat
  abandoned : Bool
  error : Option WErr
  shutdownScheduled : Bool
deriving DecidableEq, Repr

/-- The bound state installed by `ev_writer_new`: empty buffer, time bound
10*60 s, space bound 512*1024 bytes. -/
def ev_writer_new_state : Writer :=
  { buf := 0, timebound := 10 * 60, spacebound := 512 * 1024,
    timeoutAt := none, abandoned := false, error := none,
    shutdownScheduled := false }

/-- `writer_set_timebound`: arm the time-bound timeout at now+timebound if
a bound is configured and none is pending. -/
def writer_set_timebound (w : Writer) (now : Nat) : Writer :=
  if w.timebound ≠ 0 ∧ w.timeoutAt = none
  then { w with timeoutAt := some (now + w.timebound) }
  else w

/-- `ev_writer_write` from src/lib/event.c: a zero-length write is
ignored; if the new buffer contents would exceed the space bound the
writer is abandoned (error EPIPE, `writer_shutdown` scheduled through a
zero-delay timeout) unless it already was; otherwise the bytes are
buffered and a time-bound timeout armed if none was pending. -/
def ev_writer_write (w : Writer) (now n : Nat) : Writer :=
  if n = 0 then w
  else if w.spacebound ≠ 0 ∧ w.buf + n > w.spacebound then
    if ¬w.abandoned then
      { w with abandoned := true, error := some .EPIPE,
               shutdownScheduled := true }
    else w
  else writer_set_timebound { w with buf := w.buf + n } now

/-- The successful branch of `writer_callback` (write(2) returned k ≥ 0):
consume k buffered bytes, cancel the pending timeout, and re-arm it if
data remains.  (When the buffer drains the code either shuts the writer
down on eof or merely disables the fd; neither touches the fields modelled
here.) -/
def writer_callback_ok (w : Writer) (now k : Nat) : Writer :=
  let w1 := { w with buf := w.buf - k, timeoutAt := none }
  if w1.buf = 0 then w1 else writer_set_timebound w1 now

/-- `writer_timebound_exceeded`: the time-bound timeout fired; abandon the
writer with ETIMEDOUT (if not already abandoned) and run
`writer_shutdown`. -/
def writer_timebound_exceeded (w : Writer) : Writer :=
  if ¬w.abandoned then
    { w with abandoned := true, error := some .ETIMEDOUT,
             timeoutAt := none, shutdownScheduled := true }
  else
    { w with timeoutAt := none, shutdownScheduled := true }

/-- Events acting on a buffered writer: a user write, a successful flush
by `writer_callback`, and the event loop reaching a time at which the
pending time-bound timeout is due. -/
inductive WriterEvent where
  | write (now n : Nat)
  | flushOk (now k : Nat)
  | expire (now : Nat)
deriving DecidableEq, Repr

/-- One writer event step; `expire` fires the timeout only when one is
pending and due. -/
def writerStep (w : Writer) : WriterEvent → Writer
  | .write now n => ev_writer_write w now n
  | .flushOk now k => writer_callback_ok w now k
  | .expire now =>
    match w.timeoutAt with
    | some t => if t ≤ now then writer_timebound_exceeded w else w
    | none => w

/-- Run a sequence of writer events. -/
def writerRun (w : Writer) (evs : List WriterEvent) : Writer :=
  evs.foldl writerStep w

/-! ## Tied reader/writer shutdown (src/lib/event.c) -/

/-- The context a shutdown routine runs in: from a timeout callback, or
directly inside a reader/writer callback on the shared fd. -/
inductive CloseCtx where
  | timeoutCb
  | fdCb
deriving DecidableEq, Repr

/-- A reader and a writer tied on one fd: whether each side is still up
(`fd != -1`), the two tie pointers (`w->reader`, `r->writer`), and the
record of `xclose` calls on the shared fd together with the context each
ran in. -/
structure TiedPair where
  wFd : Bool
  rFd : Bool
  wTiedReader : Bool
  rTiedWriter : Bool
  closes : List CloseCtx
deriving DecidableEq, Repr

/-- A freshly tied pair (`ev_tie`). -/
def tiedInit : TiedPair := ⟨true, true, true, true, []⟩

/-- `writer_shutdown` from src/lib/event.c: no-op if already down; if a
tied reader remains, untie it (`w->reader->writer = 0`) and half-shut
(SHUT_WR) without closing; otherwise close the fd, in the given
context. -/
def writer_shutdown (ctx : CloseCtx) (p : TiedPair) : TiedPair :=
  if ¬p.wFd then p
  else if p.wTiedReader then { p with rTiedWriter := false, wFd := false }
  else { p with wFd := false, closes := p.closes ++ [ctx] }

/-- `reader_shutdown` from src/lib/event.c: no-op if already down; if a
tied writer remains, untie it (`r->writer->reader = 0`) and half-shut
(SHUT_RD) without closing; otherwise close the fd, in the given
context. -/
def reader_shutdown (ctx : CloseCtx) (p : TiedPair) : TiedPair :=
  if ¬p.rFd then p
  else if p.rTiedWriter then { p with wTiedReader := false, rFd := false }
  else { p with rFd := false, closes := p.closes ++ [ctx] }

/-- The code paths that invoke a shutdown routine, with the context each
uses in src/lib/event.c: error paths inside `writer_callback` and
`reader_callback` call the shutdown directly; `ev_writer_close` (drained),
the space bound and reader EOF defer it through a zero-delay timeout; the
time bound fires from its own timeout callback. -/
inductive ShutEvent where
  | writerError
  | writerDrainedEof
  | writerClose
  | writerSpaceBound
  | writerTimeBound
  | readerError
  | readerEof
deriving DecidableEq, Repr

/-- The context each shutdown-triggering path runs the shutdown in. -/
def shutCtx : ShutEvent → CloseCtx
  | .writerError => .fdCb
  | .writerDrainedEof => .fdCb
  | .writerClose => .timeoutCb
  | .writerSpaceBound => .timeoutCb
  | .writerTimeBound => .timeoutCb
  | .readerError => .fdCb
  | .readerEof => .timeoutCb

/-- Apply one shutdown-triggering event to the pair. -/
def shutStep (p : TiedPair) (e : ShutEvent) : TiedPair :=
  match e with
  | .writerError | .writerDrainedEof | .writerClose
  | .writerSpaceBound | .writerTimeBound => writer_shutdown (shutCtx e) p
  | .readerError | .readerEof => reader_shutdown (shutCtx e) p

/-- Run a sequence of shutdown events. -/
def shutRun (p : TiedPair) (evs : List ShutEvent) : TiedPair :=
  evs.foldl shutStep p

/-- Shutdown-discipline invariant of a tied pair: either both sides are
up, fully tied, with no close yet; or exactly one side is down, the other
side untied from it, with no close yet; or both sides are down and the fd
has been closed exactly once. -/
def pairInv (p : TiedPair) : Prop :=
  (p.wFd = true ∧ p.rFd = true ∧ p.wTiedReader = true ∧ p.rTiedWriter = true
    ∧ p.closes = [])
  ∨ (p.wFd = false ∧ p.rFd = true ∧ p.rTiedWriter = false ∧ p.closes = [])
  ∨ (p.wFd = true ∧ p.rFd = false ∧ p.wTiedReader = false ∧ p.closes = [])
  ∨ (p.wFd = false ∧ p.rFd = false ∧ p.closes.length = 1)

/-! ## `c_deluser` (src/server/server.c) -/

/-- The per-connection fields relevant to `c_deluser`: the authenticated
user (`c->who`, NULL until authentication), the rights word, and some of
the other per-connection fields the claim requires untouched. -/
structure SConn where
  who : Option String
  rights : Nat
  cookie : Option String
  rtp_requested : Bool
  tag : Nat
deriving DecidableEq, Repr

/-- The session-revocation loop of `c_deluser`:
`for(d = connections; d; d = d->next) if(!strcmp(d->who, vec[0]))
d->rights = 0;`.  `strcmp` requires a non-NULL argument; a connection that
has not authenticated still has `who == NULL` (it is never set by
`listen_callback`), so the comparison is undefined behaviour there,
modelled as `none`. -/
def deluserZap (conns : List SConn) (name : String) : Option (List SConn) :=
  conns.mapM (fun d =>
    match d.who with
    | none => none
    | some w => some (if w = name then { d with rights := 0 } else d))

/-! ## Unicast RTP destination registry
(src/server/server.c `c_rtp_request`, `c_rtp_cancel`,
`remove_connection`) -/

/-- The per-connection RTP request fields: connection identity, the
`rtp_requested` flag and the stored destination (sockaddrs are modelled
as opaque numbers). -/
structure RtpConn where
  cid : Nat
  rtp_requested : Bool
  rtp_destination : Nat
deriving DecidableEq, Repr

/-- The server state the registry claims observe: the live connection
list and the multiset of registered unicast destinations. -/
structure RtpServer where
  conns : List RtpConn
  registered : Multiset Nat
deriving DecidableEq

/-- Modelled from the spec: `rtp_request` (its definition is not among the
provided sources) "registers the caller's address as a unicast RTP
destination" — add the address to the registry. -/
def rtp_request (a : Nat) (reg : Multiset Nat) : Multiset Nat := a ::ₘ reg

/-- Modelled from the spec: `rtp_request_cancel` (not among the provided
sources) removes the registration for the given address. -/
def rtp_request_cancel (a : Nat) (reg : Multiset Nat) : Multiset Nat :=
  reg.erase a

/-- Update the connection with the given identity. -/
def updateConn (conns : List RtpConn) (cid : Nat) (f : RtpConn → RtpConn) :
    List RtpConn :=
  conns.map (fun d => if d.cid = cid then f d else d)

/-- Replies of the RTP registry commands. -/
inductive RtpReply where
  /-- "550 Invalid address" -/
  | invalidAddr550
  /-- "550 No active RTP stream" -/
  | noStream550
  /-- "250 Initiated RTP stream" / "250 Cancelled RTP stream" -/
  | ok250
deriving DecidableEq, Repr

/-- `c_rtp_request` from src/server/server.c, for the live caller `cid`:
an unresolvable address yields 550; otherwise any previously registered
destination of this connection is cancelled first, then the new one is
stored and registered.  (The `find?` miss branch is unreachable for a
live caller and leaves the state unchanged.) -/
def c_rtp_request_op (st : RtpServer) (cid : Nat) (addr : Option Nat) :
    RtpServer × RtpReply :=
  match addr with
  | none => (st, .invalidAddr550)
  | some a =>
    match st.conns.find? (fun d => d.cid = cid) with
    | none => (st, .invalidAddr550)
    | some c =>
      let reg1 := if c.rtp_requested
                  then rtp_request_cancel c.rtp_destination st.registered
                  else st.registered
      ({ conns := updateConn st.conns cid
            (fun d => { d with rtp_requested := true, rtp_destination := a }),
         registered := rtp_request a reg1 }, .ok250)

/-- `c_rtp_cancel` from src/server/server.c: 550 when no registration is
active, otherwise cancel it. -/
def c_rtp_cancel_op (st : RtpServer) (cid : Nat) : RtpServer × RtpReply :=
  match st.conns.find? (fun d => d.cid = cid) with
  | none => (st, .noStream550)
  | some c =>
    if c.rtp_requested then
      ({ conns := updateConn st.conns cid
            (fun d => { d with rtp_requested := false }),
         registered := rtp_request_cancel c.rtp_destination st.registered },
       .ok250)
    else (st, .noStream550)

/-- `remove_connection` from src/server/server.c: cancel any active RTP
registration of the connection, then unlink it from the live list. -/
def remove_connection_op (st : RtpServer) (cid : Nat) : RtpServer :=
  match st.conns.find? (fun d => d.cid = cid) with
  | none => st
  | some c =>
    { conns := st.conns.filter (fun d => ¬(d.cid = cid)),
      registered := if c.rtp_requested
                    then rtp_request_cancel c.rtp_destination st.registered
                    else st.registered }

/-- The registry contribution of one connection: its destination when it
has an active request, nothing otherwise (so each connection accounts for
at most one registered destination). -/
def connReg (d : RtpConn) : Multiset Nat :=
  if d.rtp_requested then {d.rtp_destination} else 0

/-- The destinations the live connection list accounts for. -/
def regOf (conns : List RtpConn) : Multiset Nat :=
  (conns.map connReg).sum

/-- Registry invariant: the registered destinations are exactly those of
live connections with an active request. -/
def rtpInv (st : RtpServer) : Prop := st.registered = regOf st.conns

/-- Events driving the network speaker backend: the speaker going idle
(which sets `idled`), and a `network_play` call. -/
inductive NetEvent where
  | idle
  | play (delta_us frames : Nat) (writevOk : Bool)
deriving DecidableEq, Repr

/-- One event step of the network backend. -/
def netStep (st : NetState) : NetEvent → NetState × Option NetPacket
  | .idle => ({ st with idled := true }, none)
  | .play d f ok => network_play st d f ok

/-- Run a sequence of events, collecting the transmitted packets in
order. -/
def netRun (st : NetState) : List NetEvent → NetState × List NetPacket
  | [] => (st, [])
  | e :: es =>
    let r1 := netStep st e
    let r2 := netRun r1.1 es
    (r2.1, r1.2.toList ++ r2.2)

end Disorder

namespace Disorder

/-- Helper: in the table, a zero rights mask characterises exactly the
members of `noAuthCommands`. -/
theorem rights_zero_iff_noAuth :
    ∀ e ∈ commandsTable, e.rights = 0 ↔ e.name ∈ noAuthCommands := by
  decide

/-- C1 (counterexample): an unauthenticated connection (rights word 0)
sending `play` with no arguments — the argument count (0) is below the
command's minimum (1), yet the reply is 510 (rights), not 500: the rights
gate runs first, contradicting the claim that a command whose argument
count is out of bounds yields a 500 regardless of rights. -/
theorem C1_argcount_after_rights_cex :
    commandsTable.find? (fun e => e.name = "play") = some ⟨"play", 1, 1, RIGHT_PLAY⟩
    ∧ ([] : List String).length < 1
    ∧ command 0 ["play"] = CmdOutcome.prohibited := by
  decide

/-- C1 (amended): the dispatcher checks the rights mask before the
argument-count bounds: a command failing the rights check yields 510
regardless of its argument count, and a 500 missing/too-many-arguments
reply is only produced for a command that passed the rights gate. -/
theorem C1_rights_checked_before_argcount (rights : Nat) (name : String)
    (args : List String) (e : CmdEntry)
    (hfind : commandsTable.find? (fun x => x.name = name) = some e) :
    (e.rights ≠ 0 ∧ rights &&& e.rights = 0 →
      command rights (name :: args) = CmdOutcome.prohibited)
    ∧ (command rights (name :: args) = CmdOutcome.missingArgs
        ∨ command rights (name :: args) = CmdOutcome.tooManyArgs →
      e.rights = 0 ∨ rights &&& e.rights ≠ 0) := by
  constructor
  · intro hgate
    simp only [command, hfind, if_pos hgate]
  · intro hout
    by_contra hcon
    push_neg at hcon
    obtain ⟨h1, h2⟩ := hcon
    have : command rights (name :: args) = CmdOutcome.prohibited := by
      simp only [command, hfind, if_pos (And.intro h1 h2)]
    rcases hout with h | h <;> rw [this] at h <;> exact CmdOutcome.noConfusion h

/-- Witness for C1 (amended) at a concrete input: `play` from a rights-0
connection with too few arguments is answered 510. -/
theorem C1_rights_checked_before_argcount_witness :
    command 0 ["play"] = CmdOutcome.prohibited :=
  (C1_rights_checked_before_argcount 0 "play" [] ⟨"play", 1, 1, RIGHT_PLAY⟩
    (by decide)).1 (by decide)

/-- C4 (counterexample): `version` on an unauthenticated connection is
refused with 510 (its table entry requires the read right), while
`rtp-address` — absent from the claim's set — passes the rights gate and
executes; so the claimed set {user, cookie, version, confirm, nop} is
wrong on both sides. -/
theorem C4_noauth_set_cex :
    command 0 ["version"] = CmdOutcome.prohibited
    ∧ command 0 ["rtp-address"] = CmdOutcome.execute "rtp-address" [] := by
  decide

/-- C4 (amended): the set of commands that pass the rights gate on an
unauthenticated connection (rights word zero) is exactly
{confirm, cookie, nop, rtp-address, rtp-cancel, user}: each of these is
never answered 510 at rights 0, and every other command at rights 0 is
either unknown or answered 510. -/
theorem C4_unauthenticated_command_set (name : String) (args : List String) :
    (name ∈ noAuthCommands →
      command 0 (name :: args) ≠ CmdOutcome.prohibited)
    ∧ (name ∉ noAuthCommands →
      command 0 (name :: args) = CmdOutcome.unknown
      ∨ command 0 (name :: args) = CmdOutcome.prohibited) := by
  have key : ∀ (e : CmdEntry),
      commandsTable.find? (fun x => x.name = name) = some e → e.rights = 0 →
      command 0 (name :: args) ≠ CmdOutcome.prohibited := by
    intro e hfind h0
    simp only [command, hfind]
    rw [if_neg (by simp [h0])]
    split
    · simp
    · split <;> simp
  constructor
  · intro hmem
    fin_cases hmem
    · exact key ⟨"confirm", 1, 1, 0⟩ (by decide) rfl
    · exact key ⟨"cookie", 1, 1, 0⟩ (by decide) rfl
    · exact key ⟨"nop", 0, 0, 0⟩ (by decide) rfl
    · exact key ⟨"rtp-address", 0, 0, 0⟩ (by decide) rfl
    · exact key ⟨"rtp-cancel", 0, 0, 0⟩ (by decide) rfl
    · exact key ⟨"user", 2, 2, 0⟩ (by decide) rfl
  · intro hnot
    cases hfind : commandsTable.find? (fun x => x.name = name) with
    | none => exact Or.inl (by simp only [command, hfind])
    | some e =>
      refine Or.inr ?_
      have hmem : e ∈ commandsTable := List.mem_of_find?_eq_some hfind
      have hname : e.name = name := by
        have := List.find?_some hfind
        simpa using this
      have hnz : e.rights ≠ 0 := by
        intro h0
        exact hnot (hname ▸ (rights_zero_iff_noAuth e hmem).mp h0)
      simp only [command, hfind]
      rw [if_pos (And.intro hnz (Nat.zero_and e.rights))]

/-- Witness for C4 (amended) at concrete inputs: `nop` passes the gate,
`play` does not. -/
theorem C4_unauthenticated_command_set_witness :
    command 0 ["nop"] ≠ CmdOutcome.prohibited
    ∧ (command 0 ["play"] = CmdOutcome.unknown
       ∨ command 0 ["play"] = CmdOutcome.prohibited) :=
  ⟨(C4_unauthenticated_command_set "nop" []).1 (by decide),
   (C4_unauthenticated_command_set "play" []).2 (by decide)⟩

/-- C2 (counterexample): with the wide-open flag set, `c_user` replies 230
and records the user even though the response differs from the keyed hash
of the nonce with the user's password — so authentication does not hold
only-if the response matches the hash. -/
theorem C2_user_auth_cex :
    c_user true false none (some "remote")
        (some ⟨some "pw", none, some 1⟩) demoHash "N" "alice" "bad"
      = UserReply.ok "alice" 1
    ∧ demoHash "N" "pw" ≠ some "bad" := by
  decide

/-- C2 (amended): on a connection that has not authenticated, did not come
in through the privileged socket, and with the server not in wide-open
mode, `user <name> <response>` against a confirmed user record with a
password and parsable rights succeeds (230, recording the user and the
rights, plus the local bit for local peers) iff the response equals the
keyed hash of the nonce with that user's password; any change to the nonce
or the password under which the hash value no longer matches makes
authentication fail with 530. -/
theorem C2_user_auth_iff_hash (authhash : String → String → Option String)
    (h p : String) (rights : Nat) (nonce name response : String) :
    (c_user false false none (some h) (some ⟨some p, none, some rights⟩)
        authhash nonce name response
      = UserReply.ok name (if h = "local" then rights ||| RIGHT__LOCAL else rights)
     ↔ authhash nonce p = some response)
    ∧ (∀ nonce2 p2 resp, authhash nonce p = some resp →
        authhash nonce2 p2 ≠ some resp →
        c_user false false none (some h) (some ⟨some p2, none, some rights⟩)
          authhash nonce2 name resp = UserReply.authFailed) := by
  constructor
  · by_cases hres : authhash nonce p = some response
    · simp [c_user, hres]
    · simp [c_user, hres]
  · intro nonce2 p2 resp _ hbad
    simp [c_user, hbad]

/-- Witness for C2 (amended): with the stand-in hash, the matching
response authenticates and a changed nonce is rejected. -/
theorem C2_user_auth_iff_hash_witness :
    c_user false false none (some "remote")
        (some ⟨some "pw", none, some 1⟩) demoHash "N" "alice" "N:pw"
      = UserReply.ok "alice" (if ("remote" : String) = "local" then 1 ||| RIGHT__LOCAL else 1)
    ∧ c_user false false none (some "remote")
        (some ⟨some "pw", none, some 1⟩) demoHash "M" "alice" "N:pw"
      = UserReply.authFailed :=
  ⟨(C2_user_auth_iff_hash demoHash "remote" "pw" 1 "N" "alice" "N:pw").1.mpr
      (by decide),
   (C2_user_auth_iff_hash demoHash "remote" "pw" 1 "N" "alice" "N:pw").2
      "M" "pw" "N:pw" (by decide) (by decide)⟩

/-- C3 (counterexample): a `rtp_play` call in the paused state writes no
datagram to the socket at all (while still reporting the samples as
consumed), contradicting the claim that a packet is written to the network
socket for every play call made while paused. -/
theorem C3_paused_sends_no_packet_cex :
    (rtp_play ⟨0, 0, 0⟩ 0 240 true false 0 true).written = []
    ∧ (rtp_play ⟨0, 0, 0⟩ 0 240 true false 0 true).ret = 240 := by
  decide

/-- C3 (amended): while paused, `rtp_play` performs the full per-packet
bookkeeping — it consumes a sequence number, advances the schedule by the
offered samples and returns them as consumed — but writes nothing to the
network socket: no packet is transmitted for a play call made in the
paused state. -/
theorem C3_paused_pretends (st : RtpPlayState) (rtp_base n : Nat)
    (resume : Bool) (ts : Nat) (wr : Bool) :
    (rtp_play st rtp_base n true resume ts wr).written = []
    ∧ (rtp_play st rtp_base n true resume ts wr).ret = n
    ∧ (rtp_play st rtp_base n true resume ts wr).state.scheduleSent
        = st.scheduleSent + n
    ∧ (rtp_play st rtp_base n true resume ts wr).state.rtp_sequence
        = (st.rtp_sequence + 1) % 65536 :=
  ⟨rfl, rfl, rfl, rfl⟩

/-- C5: evaluating `c_playing_hls` with HLS disabled (base URL configured)
while a track with a rootless path is playing: the connection receives the
550 error line and then an additional 252 success line for the same
command — the handler's error branch does not return. -/
theorem C5_playing_hls_error_then_success :
    c_playing_hls false (some "http://h/") (some (some "t.ogg", 5)) id
      = ["550 HLS not enabled", "252 5 http://h/t.ogg"] := by
  rfl

/-- Helper: the idle-gap fixup never decreases `rtp_time`. -/
theorem networkFixup_le (idled : Bool) (rt t : Nat) :
    rt ≤ networkFixup idled rt t := by
  unfold networkFixup
  split
  · split
    · omega
    · exact le_refl rt
  · exact le_refl rt

/-- Helper: one step of the network backend never decreases `rtp_time`,
and any packet it transmits carries a 64-bit timestamp between the old and
the new `rtp_time`. -/
theorem netStep_spec (st : NetState) (e : NetEvent) :
    st.rtp_time ≤ (netStep st e).1.rtp_time
    ∧ ∀ p ∈ (netStep st e).2.toList,
        st.rtp_time ≤ p.rtp64 ∧ p.rtp64 ≤ (netStep st e).1.rtp_time := by
  cases e with
  | idle => simp [netStep]
  | play d f ok =>
    have hfix := networkFixup_le st.idled st.rtp_time (networkTarget d)
    cases ok with
    | true =>
      refine ⟨?_, ?_⟩
      · simpa [netStep, network_play] using
          le_trans hfix (Nat.le_add_right _ _)
      · intro p hp
        simp only [netStep, network_play, if_pos, Option.toList,
          List.mem_singleton] at hp
        subst hp
        exact ⟨hfix, by simp [netStep, network_play]⟩
    | false =>
      refine ⟨?_, ?_⟩
      · simpa [netStep, network_play] using hfix
      · intro p hp
        simp [netStep, network_play] at hp

/-- Helper: over any event trace, `rtp_time` is non-decreasing, every
transmitted packet timestamp lies between the initial and final
`rtp_time`, and the transmitted timestamps are non-decreasing in
transmission order. -/
theorem netRun_spec (evs : List NetEvent) (st : NetState) :
    st.rtp_time ≤ (netRun st evs).1.rtp_time
    ∧ (∀ p ∈ (netRun st evs).2,
        st.rtp_time ≤ p.rtp64 ∧ p.rtp64 ≤ (netRun st evs).1.rtp_time)
    ∧ List.Chain' (fun a b => a.rtp64 ≤ b.rtp64) (netRun st evs).2 := by
  induction evs generalizing st with
  | nil => simp [netRun]
  | cons e es ih =>
    have hstep := netStep_spec st e
    obtain ⟨h1, h2⟩ := hstep
    obtain ⟨ih1, ih2, ih3⟩ := ih (netStep st e).1
    simp only [netRun]
    refine ⟨le_trans h1 ih1, ?_, ?_⟩
    · intro p hp
      rcases List.mem_append.mp hp with hp1 | hp2
      · obtain ⟨ha, hb⟩ := h2 p hp1
        exact ⟨ha, le_trans hb ih1⟩
      · obtain ⟨ha, hb⟩ := ih2 p hp2
        exact ⟨le_trans h1 ha, hb⟩
    · cases hpo : (netStep st e).2 with
      | none => simpa [hpo] using ih3
      | some p =>
        simp only [hpo, Option.toList, List.singleton_append]
        rw [List.chain'_cons']
        refine ⟨?_, ih3⟩
        intro b hb
        have hbmem : b ∈ (netRun (netStep st e).1 es).2 :=
          List.mem_of_mem_head? hb
        have hple : p.rtp64 ≤ (netStep st e).1.rtp_time :=
          (h2 p (by simp [hpo])).2
        exact le_trans hple (ih2 b hbmem).1

/-- C6: across any sequence of play and idle-gap events (pause and resume
reach the sender as gaps in play calls), the 64-bit sample counter
`rtp_time` is monotonically non-decreasing and no packet is transmitted
with a timestamp less than its predecessor's; after an idle gap the fixup
advances `rtp_time` to the (even-masked) target when the target exceeds
it, and leaves it unchanged otherwise. -/
theorem C6_rtp_time_monotone :
    (∀ st evs, st.rtp_time ≤ (netRun st evs).1.rtp_time)
    ∧ (∀ st evs,
        List.Chain' (fun a b => a.rtp64 ≤ b.rtp64) (netRun st evs).2)
    ∧ (∀ rt t, (rt < t → networkFixup true rt t = t)
        ∧ (t ≤ rt → networkFixup true rt t = rt)) := by
  refine ⟨fun st evs => (netRun_spec evs st).1,
          fun st evs => (netRun_spec evs st).2.2, ?_⟩
  intro rt t
  constructor
  · intro hlt
    simp [networkFixup, hlt]
  · intro hle
    simp [networkFixup, Nat.not_lt.mpr hle]

/-- Witness for C6 at concrete inputs: the fixup advances to a larger
target and keeps `rtp_time` for a smaller one. -/
theorem C6_rtp_time_monotone_witness :
    networkFixup true 5 10 = 10 ∧ networkFixup true 10 4 = 10 :=
  ⟨(C6_rtp_time_monotone.2.2 5 10).1 (by decide),
   (C6_rtp_time_monotone.2.2 10 4).2 (by decide)⟩

/-- Helper: no writer event clears the abandoned flag. -/
theorem writerStep_abandoned_mono (w : Writer) (e : WriterEvent)
    (h : w.abandoned = true) : (writerStep w e).abandoned = true := by
  cases e <;>
    simp only [writerStep, ev_writer_write, writer_callback_ok,
      writer_set_timebound, writer_timebound_exceeded] <;>
    repeat' split <;> simp_all

/-- Helper: an abandoned writer stays abandoned along any trace. -/
theorem writerRun_abandoned_mono (evs : List WriterEvent) (w : Writer)
    (h : w.abandoned = true) : (writerRun w evs).abandoned = true := by
  induction evs generalizing w with
  | nil => simpa [writerRun] using h
  | cons e es ih =>
    simp only [writerRun, List.foldl_cons]
    exact ih (writerStep w e) (writerStep_abandoned_mono w e h)

/-- Helper: `ev_writer_write` never disturbs a pending time-bound
timeout. -/
theorem ev_writer_write_timeoutAt (w : Writer) (now n T : Nat)
    (h : w.timeoutAt = some T) :
    (ev_writer_write w now n).timeoutAt = some T := by
  simp only [ev_writer_write, writer_set_timebound]
  repeat' (split <;> try simp_all)

/-- Helper: once a time-bound timeout is pending, a trace containing no
successful flush but containing an expiry at or after the deadline leaves
the writer abandoned. -/
theorem writer_timeout_trace (evs : List WriterEvent) (w : Writer) (T : Nat)
    (hT : w.timeoutAt = some T)
    (hnoflush : ∀ now k, WriterEvent.flushOk now k ∉ evs)
    (hexp : ∃ now, T ≤ now ∧ WriterEvent.expire now ∈ evs) :
    (writerRun w evs).abandoned = true := by
  induction evs generalizing w with
  | nil =>
    obtain ⟨now, _, hmem⟩ := hexp
    simp at hmem
  | cons e es ih =>
    obtain ⟨now, hge, hmem⟩ := hexp
    simp only [writerRun, List.foldl_cons]
    cases e with
    | write now2 n =>
      have hT2 := ev_writer_write_timeoutAt w now2 n T hT
      have hmem2 : WriterEvent.expire now ∈ es := by
        rcases List.mem_cons.mp hmem with heq | hm
        · exact absurd heq (by simp)
        · exact hm
      exact ih (ev_writer_write w now2 n) hT2
        (fun n2 k2 hmm => hnoflush n2 k2 (List.mem_cons_of_mem _ hmm))
        ⟨now, hge, hmem2⟩
    | flushOk now2 k =>
      exact absurd (List.mem_cons_self _ _) (hnoflush now2 k)
    | expire now2 =>
      by_cases hfire : T ≤ now2
      · have hstep : (writerStep w (.expire now2)).abandoned = true := by
          simp only [writerStep, hT, if_pos hfire, writer_timebound_exceeded]
          split <;> simp_all
        exact writerRun_abandoned_mono es _ hstep
      · have hstep : writerStep w (.expire now2) = w := by
          simp [writerStep, hT, hfire]
        rw [hstep]
        rcases List.mem_cons.mp hmem with heq | hm
        · cases heq
          exact absurd hge hfire
        · exact ih w hT
            (fun n2 k2 hmm => hnoflush n2 k2 (List.mem_cons_of_mem _ hmm))
            ⟨now, hge, hm⟩

/-- C7: with the default bounds (space 512 KiB, time 600 s):
a write of n > 0 bytes onto b buffered bytes abandons the writer —
synthesizing EPIPE and scheduling shutdown — exactly when b + n exceeds
512 KiB, and buffers the bytes otherwise (so a write reaching exactly
512 KiB succeeds and one more byte abandons); buffering data with no
pending timeout arms the 600-second deadline, the deadline firing on a
non-abandoned writer abandons it with ETIMEDOUT, and a trace with no
successful write past a pending deadline always ends abandoned. -/
theorem C7_writer_space_and_time_bounds :
    (ev_writer_new_state.spacebound = 512 * 1024
      ∧ ev_writer_new_state.timebound = 600)
    ∧ (∀ w now n, w.spacebound = 512 * 1024 → w.abandoned = false → 0 < n →
        ((ev_writer_write w now n).abandoned = true ↔ 512 * 1024 < w.buf + n)
        ∧ (512 * 1024 < w.buf + n →
            (ev_writer_write w now n).error = some WErr.EPIPE
            ∧ (ev_writer_write w now n).shutdownScheduled = true
            ∧ (ev_writer_write w now n).buf = w.buf)
        ∧ (w.buf + n ≤ 512 * 1024 →
            (ev_writer_write w now n).buf = w.buf + n
            ∧ (ev_writer_write w now n).abandoned = false))
    ∧ (∀ w now n, w.timebound = 600 → w.timeoutAt = none →
        w.spacebound = 512 * 1024 → 0 < n → w.buf + n ≤ 512 * 1024 →
        (ev_writer_write w now n).timeoutAt = some (now + 600))
    ∧ (∀ w now T, w.timeoutAt = some T → T ≤ now → w.abandoned = false →
        (writerStep w (.expire now)).abandoned = true
        ∧ (writerStep w (.expire now)).error = some WErr.ETIMEDOUT)
    ∧ (∀ evs w T, w.timeoutAt = some T →
        (∀ now k, WriterEvent.flushOk now k ∉ evs) →
        (∃ now, T ≤ now ∧ WriterEvent.expire now ∈ evs) →
        (writerRun w evs).abandoned = true) := by
  refine ⟨⟨rfl, rfl⟩, ?_, ?_, ?_, writer_timeout_trace⟩
  · intro w now n hsb hab hn
    refine ⟨?_, ?_, ?_⟩
    · constructor
      · intro habd
        by_contra hle
        push_neg at hle
        have : (ev_writer_write w now n).abandoned = w.abandoned := by
          simp only [ev_writer_write, writer_set_timebound]
          rw [if_neg (by omega), if_neg (by rw [hsb]; omega)]
          split <;> rfl
        rw [this, hab] at habd
        exact Bool.noConfusion habd
      · intro hgt
        simp only [ev_writer_write]
        rw [if_neg (by omega), if_pos ⟨by rw [hsb]; omega, by rw [hsb]; omega⟩,
          if_pos (by simp [hab])]
    · intro hgt
      simp only [ev_writer_write]
      rw [if_neg (by omega), if_pos ⟨by rw [hsb]; omega, by rw [hsb]; omega⟩,
        if_pos (by simp [hab])]
      exact ⟨rfl, rfl, rfl⟩
    · intro hle
      simp only [ev_writer_write, writer_set_timebound]
      rw [if_neg (by omega), if_neg (by rw [hsb]; omega)]
      split <;> exact ⟨rfl, hab ▸ rfl⟩
  · intro w now n htb hto hsb hn hle
    simp only [ev_writer_write, writer_set_timebound]
    rw [if_neg (by omega), if_neg (by rw [hsb]; omega),
      if_pos (by simp [htb, hto]), htb]
  · intro w now T hT hdue hab
    constructor <;>
      simp [writerStep, hT, if_pos hdue, writer_timebound_exceeded, hab]

/-- Witness for C7 at the 512 KiB boundary and a concrete expiry: filling
the buffer to exactly 512 KiB buffers, one byte more abandons with EPIPE,
and an expired deadline abandons with ETIMEDOUT. -/
theorem C7_writer_space_and_time_bounds_witness :
    ((ev_writer_write ⟨524287, 600, 524288, none, false, none, false⟩ 0 1).buf
        = 524288
      ∧ (ev_writer_write ⟨524287, 600, 524288, none, false, none, false⟩ 0 1).abandoned
        = false)
    ∧ ((ev_writer_write ⟨524288, 600, 524288, none, false, none, false⟩ 0 1).abandoned
        = true
      ↔ 512 * 1024 < 524288 + 1)
    ∧ (writerRun ⟨9, 600, 524288, some 700, false, none, false⟩
        [WriterEvent.expire 700]).abandoned = true :=
  ⟨(C7_writer_space_and_time_bounds.2.1
      ⟨524287, 600, 524288, none, false, none, false⟩ 0 1 rfl rfl
      (by decide)).2.2 (by decide),
   (C7_writer_space_and_time_bounds.2.1
      ⟨524288, 600, 524288, none, false, none, false⟩ 0 1 rfl rfl
      (by decide)).1,
   C7_writer_space_and_time_bounds.2.2.2.2 [WriterEvent.expire 700]
      ⟨9, 600, 524288, some 700, false, none, false⟩ 700 rfl
      (by intro now k; simp) ⟨700, le_refl 700, by simp⟩⟩

/-- C8 (counterexample): after the writer shuts down first (here through
`ev_writer_close`), a read error makes `reader_callback` call
`reader_shutdown` directly, and — the writer being gone — that closes the
shared fd from inside the reader's own fd callback, not from a zero-delay
timeout. -/
theorem C8_close_inside_fd_callback_cex :
    shutRun tiedInit [ShutEvent.writerClose, ShutEvent.readerError]
      = ⟨false, false, true, false, [CloseCtx.fdCb]⟩ := by
  decide

/-- Helper: the tied-pair shutdown invariant is preserved by every
shutdown-triggering event. -/
theorem pairInv_step (p : TiedPair) (e : ShutEvent) (h : pairInv p) :
    pairInv (shutStep p e) := by
  rcases h with ⟨h1, h2, h3, h4, h5⟩ | ⟨h1, h2, h3, h5⟩
    | ⟨h1, h2, h3, h5⟩ | ⟨h1, h2, h5⟩ <;>
    cases e <;>
      simp_all [pairInv, shutStep, writer_shutdown, reader_shutdown, shutCtx]

/-- Helper: the tied-pair shutdown invariant holds along any trace. -/
theorem pairInv_run (evs : List ShutEvent) (p : TiedPair) (h : pairInv p) :
    pairInv (shutRun p evs) := by
  induction evs generalizing p with
  | nil => simpa [shutRun] using h
  | cons e es ih =>
    simp only [shutRun, List.foldl_cons]
    exact ih (shutStep p e) (pairInv_step p e h)

/-- Helper: every recorded close context was either there already or is
the context of one of the trace's events. -/
theorem shutRun_closes_ctx (evs : List ShutEvent) (p : TiedPair)
    (c : CloseCtx) (h : c ∈ (shutRun p evs).closes) :
    c ∈ p.closes ∨ ∃ e ∈ evs, shutCtx e = c := by
  induction evs generalizing p with
  | nil => exact Or.inl (by simpa [shutRun] using h)
  | cons e es ih =>
    simp only [shutRun, List.foldl_cons] at h
    rcases ih (shutStep p e) h with hin | ⟨e2, he2, hc2⟩
    · have hstep : c ∈ p.closes ∨ c = shutCtx e := by
        rcases e <;>
          · simp only [shutStep, writer_shutdown, reader_shutdown] at hin
            repeat' split at hin
            all_goals simp_all
      rcases hstep with h1 | h2
      · exact Or.inl h1
      · exact Or.inr ⟨e, List.mem_cons_self _ _, h2.symm⟩
    · exact Or.inr ⟨e2, List.mem_cons_of_mem _ he2, hc2⟩

/-- C8 (amended): in every shutdown order the shared fd is closed exactly
once — the first side to shut down half-shuts and unties, the fd is closed
precisely when both sides are down — and every close runs in the context
of the path that triggered it: a timeout callback for the
`ev_writer_close`, space-bound, time-bound and reader-EOF paths, but
directly inside the fd's own reader/writer callback for the read/write
error and drained-eof paths (so not every close comes from a zero-delay
timeout). -/
theorem C8_tied_fd_closed_exactly_once :
    (∀ evs, (shutRun tiedInit evs).closes.length ≤ 1)
    ∧ (∀ evs, (shutRun tiedInit evs).closes.length = 1
        ↔ (shutRun tiedInit evs).wFd = false
          ∧ (shutRun tiedInit evs).rFd = false)
    ∧ (∀ evs c, c ∈ (shutRun tiedInit evs).closes →
        ∃ e ∈ evs, shutCtx e = c) := by
  have hinit : pairInv tiedInit := Or.inl ⟨rfl, rfl, rfl, rfl, rfl⟩
  refine ⟨?_, ?_, ?_⟩
  · intro evs
    rcases pairInv_run evs tiedInit hinit with ⟨_, _, _, _, h5⟩
      | ⟨_, _, _, h5⟩ | ⟨_, _, _, h5⟩ | ⟨_, _, h5⟩ <;> simp [h5]
  · intro evs
    rcases pairInv_run evs tiedInit hinit with ⟨h1, h2, _, _, h5⟩
      | ⟨h1, h2, _, h5⟩ | ⟨h1, h2, _, h5⟩ | ⟨h1, h2, h5⟩ <;>
      simp [h1, h2, h5]
  · intro evs c hc
    rcases shutRun_closes_ctx evs tiedInit c hc with hin | hfound
    · exact absurd hin (by simp [tiedInit])
    · exact hfound

/-- Witness for C8 at a concrete trace: the single close of the
writer-first/reader-error order is attributed to one of the two events. -/
theorem C8_tied_fd_closed_exactly_once_witness :
    ∃ e ∈ [ShutEvent.writerClose, ShutEvent.readerError],
      shutCtx e = CloseCtx.fdCb :=
  C8_tied_fd_closed_exactly_once.2.2
    [ShutEvent.writerClose, ShutEvent.readerError] CloseCtx.fdCb (by decide)

/-- C9: evaluating the `c_deluser` revocation loop.  First conjunct: a
live list containing a connection that has not authenticated (`who` still
NULL) makes the loop hit `strcmp(NULL, name)` — undefined behaviour,
modelled as `none` — where the claim requires the unauthenticated
connection left unchanged.  Second conjunct: on a list of authenticated
connections the loop does zero the rights of exactly the matching user and
leaves every other field of every connection unchanged, which is the
claim's (and the spec's) evident intent. -/
theorem C9_deluser_null_who_crash :
    deluserZap [⟨none, 7, none, false, 3⟩] "alice" = none
    ∧ deluserZap [⟨some "alice", 7, some "ck", true, 1⟩,
                  ⟨some "bob", 5, none, false, 2⟩] "alice"
      = some [⟨some "alice", 0, some "ck", true, 1⟩,
              ⟨some "bob", 5, none, false, 2⟩] := by
  decide

/-- Helper: `regOf` distributes over cons. -/
theorem regOf_cons (d : RtpConn) (l : List RtpConn) :
    regOf (d :: l) = connReg d + regOf l := by
  simp [regOf]

/-- Helper: updating an absent identity is the identity. -/
theorem updateConn_no_match (conns : List RtpConn) (cid : Nat)
    (f : RtpConn → RtpConn) (h : ∀ d ∈ conns, d.cid ≠ cid) :
    updateConn conns cid f = conns := by
  induction conns with
  | nil => rfl
  | cons d rest ih =>
    simp only [updateConn, List.map_cons]
    rw [if_neg (h d (List.mem_cons_self _ _))]
    have := ih (fun e he => h e (List.mem_cons_of_mem _ he))
    simp only [updateConn] at this
    rw [this]

/-- Helper: filtering out an absent identity is the identity. -/
theorem filterConn_no_match (conns : List RtpConn) (cid : Nat)
    (h : ∀ d ∈ conns, d.cid ≠ cid) :
    conns.filter (fun d => ¬(d.cid = cid)) = conns := by
  rw [List.filter_eq_self]
  intro a ha
  simpa using h a ha

/-- Helper: how updating the found connection changes the accounted
destinations, in cancellation-free additive form. -/
theorem regOf_update_add (conns : List RtpConn) (cid : Nat)
    (f : RtpConn → RtpConn) (c : RtpConn)
    (hnd : (conns.map RtpConn.cid).Nodup)
    (hfind : conns.find? (fun d => d.cid = cid) = some c) :
    regOf (updateConn conns cid f) + connReg c
      = regOf conns + connReg (f c) := by
  induction conns with
  | nil => simp at hfind
  | cons d rest ih =>
    rw [List.map_cons, List.nodup_cons] at hnd
    obtain ⟨hd_notin, hnd_rest⟩ := hnd
    by_cases hd : d.cid = cid
    · have hc : c = d := by
        rw [List.find?_cons_of_pos _ (by simpa using hd)] at hfind
        exact (Option.some_inj.mp hfind).symm
      subst hc
      have hrest : ∀ e ∈ rest, e.cid ≠ cid := by
        intro e he hecid
        exact hd_notin (hd ▸ hecid ▸ List.mem_map_of_mem RtpConn.cid he)
      simp only [updateConn, List.map_cons, if_pos hd]
      have hrest_eq :
          List.map (fun d2 => if d2.cid = cid then f d2 else d2) rest
            = rest := by
        have := updateConn_no_match rest cid f hrest
        simpa [updateConn] using this
      rw [hrest_eq, regOf_cons, regOf_cons]
      abel
    · rw [List.find?_cons_of_neg _ (by simpa using hd)] at hfind
      have hrest := ih hnd_rest hfind
      simp only [updateConn, List.map_cons, if_neg hd]
      simp only [updateConn] at hrest
      rw [regOf_cons, regOf_cons, add_assoc, add_assoc, hrest]

/-- Helper: how removing the found connection changes the accounted
destinations, in additive form. -/
theorem regOf_filter_add (conns : List RtpConn) (cid : Nat) (c : RtpConn)
    (hnd : (conns.map RtpConn.cid).Nodup)
    (hfind : conns.find? (fun d => d.cid = cid) = some c) :
    regOf (conns.filter (fun d => ¬(d.cid = cid))) + connReg c
      = regOf conns := by
  induction conns with
  | nil => simp at hfind
  | cons d rest ih =>
    rw [List.map_cons, List.nodup_cons] at hnd
    obtain ⟨hd_notin, hnd_rest⟩ := hnd
    by_cases hd : d.cid = cid
    · have hc : c = d := by
        rw [List.find?_cons_of_pos _ (by simpa using hd)] at hfind
        exact (Option.some_inj.mp hfind).symm
      subst hc
      have hrest : ∀ e ∈ rest, e.cid ≠ cid := by
        intro e he hecid
        exact hd_notin (hd ▸ hecid ▸ List.mem_map_of_mem RtpConn.cid he)
      rw [List.filter_cons, if_neg (by simpa using hd),
        filterConn_no_match rest cid hrest, regOf_cons]
      abel
    · rw [List.filter_cons, if_pos (by simpa using hd)] at *
      have hfind2 : rest.find? (fun d => d.cid = cid) = some c := by
        rwa [List.find?_cons_of_neg _ (by simpa using hd)] at hfind
      rw [regOf_cons, regOf_cons, add_assoc, ih hnd_rest hfind2]

/-- Helper: a live connection with an active request accounts for its
destination. -/
theorem connReg_mem (conns : List RtpConn) (c : RtpConn) (hc : c ∈ conns)
    (hreq : c.rtp_requested = true) :
    c.rtp_destination ∈ regOf conns := by
  induction conns with
  | nil => simp at hc
  | cons d rest ih =>
    rw [regOf_cons]
    rcases List.mem_cons.mp hc with heq | hm
    · subst heq
      exact Multiset.mem_add.mpr (Or.inl (by simp [connReg, hreq]))
    · exact Multiset.mem_add.mpr (Or.inr (ih hm))

/-- Helper: the accounted multiset has one element per requesting
connection. -/
theorem regOf_card (conns : List RtpConn) :
    Multiset.card (regOf conns)
      = (conns.filter (fun d => d.rtp_requested)).length := by
  induction conns with
  | nil => rfl
  | cons d rest ih =>
    rw [regOf_cons, Multiset.card_add, ih, List.filter_cons]
    cases hreq : d.rtp_requested
    · simp [connReg, hreq]
    · simp [connReg, hreq]
      omega

/-- C10: with distinct connection identities and the registry invariant
(the registered unicast destinations are exactly those of live connections
with an active request, so each connection accounts for at most one), the
invariant is preserved by `c_rtp_request` (which cancels any previous
registration of the caller before registering the new address), by
`c_rtp_cancel` (which replies 550 exactly when the caller has no active
registration), and by `remove_connection` (after which the connection is
gone from the live list, so no destination outlives its connection);
moreover the registry size equals the number of requesting connections. -/
theorem C10_unicast_destination_registry (st : RtpServer) (cid a : Nat)
    (hnd : (st.conns.map RtpConn.cid).Nodup) (hinv : rtpInv st) :
    rtpInv (c_rtp_request_op st cid (some a)).1
    ∧ rtpInv (c_rtp_cancel_op st cid).1
    ∧ rtpInv (remove_connection_op st cid)
    ∧ (∀ d ∈ (remove_connection_op st cid).conns, d.cid ≠ cid)
    ∧ (∀ c, st.conns.find? (fun d => d.cid = cid) = some c →
        ((c_rtp_cancel_op st cid).2 = RtpReply.noStream550
          ↔ c.rtp_requested = false))
    ∧ Multiset.card st.registered
        = (st.conns.filter (fun d => d.rtp_requested)).length := by
  refine ⟨?_, ?_, ?_, ?_, ?_, ?_⟩
  · -- request preserves the invariant
    cases hfind : st.conns.find? (fun d => d.cid = cid) with
    | none => simpa [c_rtp_request_op, hfind] using hinv
    | some c =>
      have hupd := regOf_update_add st.conns cid
        (fun d => { d with rtp_requested := true, rtp_destination := a })
        c hnd hfind
      cases hreq : c.rtp_requested with
      | true =>
        have hcmem : c ∈ st.conns := List.mem_of_find?_eq_some hfind
        have hdest : c.rtp_destination ∈ regOf st.conns :=
          connReg_mem _ c hcmem hreq
        simp only [connReg] at hupd
        simp [hreq] at hupd
        simp only [rtpInv, c_rtp_request_op, hfind, rtp_request,
          rtp_request_cancel, hreq, if_true]
        rw [hinv]
        have h1 : c.rtp_destination ::ₘ
            (regOf st.conns).erase c.rtp_destination = regOf st.conns :=
          Multiset.cons_erase hdest
        have hswap : c.rtp_destination ::ₘ
            regOf (updateConn st.conns cid
              (fun d => { d with rtp_requested := true,
                                 rtp_destination := a }))
            = c.rtp_destination ::ₘ (a ::ₘ
                (regOf st.conns).erase c.rtp_destination) := by
          calc c.rtp_destination ::ₘ regOf (updateConn st.conns cid
                  (fun d => { d with rtp_requested := true,
                                     rtp_destination := a }))
              = regOf (updateConn st.conns cid
                  (fun d => { d with rtp_requested := true,
                                     rtp_destination := a }))
                + {c.rtp_destination} := by
                rw [add_comm, Multiset.singleton_add]
            _ = regOf st.conns + {a} := hupd
            _ = (c.rtp_destination ::ₘ
                  (regOf st.conns).erase c.rtp_destination) + {a} := by
                rw [h1]
            _ = c.rtp_destination ::ₘ (a ::ₘ
                  (regOf st.conns).erase c.rtp_destination) := by
                rw [add_comm, Multiset.singleton_add, Multiset.cons_swap]
        exact ((Multiset.cons_inj_right _).mp hswap).symm
      | false =>
        simp only [connReg] at hupd
        simp [hreq] at hupd
        simp only [rtpInv, c_rtp_request_op, hfind, rtp_request,
          rtp_request_cancel, hreq]
        rw [if_neg (by simp [hreq]), hinv, hupd, add_comm,
          Multiset.singleton_add]
  · -- cancel preserves the invariant
    cases hfind : st.conns.find? (fun d => d.cid = cid) with
    | none => simpa [c_rtp_cancel_op, hfind] using hinv
    | some c =>
      cases hreq : c.rtp_requested with
      | false => simpa [c_rtp_cancel_op, hfind, hreq] using hinv
      | true =>
        have hupd := regOf_update_add st.conns cid
          (fun d => { d with rtp_requested := false }) c hnd hfind
        simp only [connReg] at hupd
        simp [hreq] at hupd
        simp only [rtpInv, c_rtp_cancel_op, hfind, hreq, if_true,
          rtp_request_cancel]
        rw [hinv, ← hupd, add_comm, Multiset.singleton_add,
          Multiset.erase_cons_head]
  · -- connection removal preserves the invariant
    cases hfind : st.conns.find? (fun d => d.cid = cid) with
    | none => simpa [remove_connection_op, hfind] using hinv
    | some c =>
      have hfil := regOf_filter_add st.conns cid c hnd hfind
      cases hreq : c.rtp_requested with
      | false =>
        simp only [connReg] at hfil
        simp [hreq] at hfil
        simp only [rtpInv, remove_connection_op, hfind, hreq,
          decide_not]
        rw [if_neg (by simp [hreq]), hinv]
        exact hfil.symm
      | true =>
        simp only [connReg] at hfil
        simp [hreq] at hfil
        simp only [rtpInv, remove_connection_op, hfind, hreq, if_true,
          rtp_request_cancel, decide_not]
        rw [hinv, ← hfil, add_comm, Multiset.singleton_add,
          Multiset.erase_cons_head]
  · -- the removed connection is gone
    cases hfind : st.conns.find? (fun d => d.cid = cid) with
    | none =>
      intro d hd
      simp only [remove_connection_op, hfind] at hd
      have := List.find?_eq_none.mp hfind d hd
      simpa using this
    | some c =>
      intro d hd
      simp only [remove_connection_op, hfind] at hd
      have := List.of_mem_filter hd
      simpa using this
  · -- 550 exactly when no registration is active
    intro c hfind
    cases hreq : c.rtp_requested <;>
      simp [c_rtp_cancel_op, hfind, hreq]
  · -- one registered destination per requesting connection
    rw [hinv, regOf_card]

/-- Witness for C10 at a concrete server state: a single requesting
connection with destination 42. -/
theorem C10_unicast_destination_registry_witness :
    rtpInv (c_rtp_request_op ⟨[⟨1, true, 42⟩], {42}⟩ 1 (some 99)).1
    ∧ ((c_rtp_cancel_op ⟨[⟨1, true, 42⟩], ({42} : Multiset Nat)⟩ 1).2
        = RtpReply.noStream550
      ↔ (⟨1, true, 42⟩ : RtpConn).rtp_requested = false) :=
  ⟨(C10_unicast_destination_registry ⟨[⟨1, true, 42⟩], {42}⟩ 1 99
      (by decide) (by simp [rtpInv, regOf, connReg])).1,
   (C10_unicast_destination_registry ⟨[⟨1, true, 42⟩], {42}⟩ 1 99
      (by decide) (by simp [rtpInv, regOf, connReg])).2.2.2.2.1
      ⟨1, true, 42⟩ (by decide)⟩

end Disorder
